import Mathlib

/-!
Verification of the evaluation harness in `src/evaluation_tools.py`
(class `EvaluationTools`).

Modelling conventions:
* Python floats are modelled by `ℚ`; in every code path under study the
  arithmetic is exact (counts, sums, divisions of small rationals).
* The model object `dipnn` is opaque in the source: `dipnn.predict(X_test)`
  returns a pair of equal-length sequences (binary decisions, scores).
  We pass those two lists (`Ypb`, `Yscore`) to `test` directly.
* `sklearn.metrics.roc_auc_score` is an external routine; it is modelled as
  an opaque function parameter `aucFn : List ℚ → List ℚ → ℚ` taking the
  (binarized) label list and the score list.
* Python raises `ZeroDivisionError` on float division by zero; the places
  where the source can divide by zero are modelled with `Option`, returning
  `none` exactly there.
* The repetition drivers `evaluate_multiple_times` / `evaluate_k_fold`
  interleave external, nondeterministic steps (random splits, training,
  wall-clock timing).  Each iteration's observable outcome (the metrics
  returned by `test` plus the two measured durations) is abstracted as a
  `RunRecord`; the drivers are parameterized by the map from iteration
  index to its record, and the aggregation arithmetic is translated
  verbatim.  Console prints are modelled as extra fields (`printed_*`,
  `var_acc`, `var_roc`) alongside the returned 8-tuple (`ret`).
-/

namespace EvaluationTools

/-- The 6-tuple returned by `EvaluationTools.test`:
`accuracy, TP_rate, TN_rate, precision, recall, roc_auc_score_value`. -/
structure TestResult where
  accuracy : ℚ
  TP_rate : ℚ
  TN_rate : ℚ
  prec : ℚ
  «recall» : ℚ
  roc_auc : ℚ
deriving Repr, DecidableEq

/-- `[1.0 if score >= new_threshold else 0.0 for score in Y_predicted]`. -/
def binarizeByThreshold (t : ℚ) (scores : List ℚ) : List ℚ :=
  scores.map (fun score => if score ≥ t then 1 else 0)

/-- The binary prediction list actually used by `test`: the recomputed one
when `new_threshold >= 0.0`, the model's own output otherwise. -/
def effectiveBinary (Ypb Yscore : List ℚ) (new_threshold : ℚ) : List ℚ :=
  if new_threshold ≥ 0 then binarizeByThreshold new_threshold Yscore else Ypb

/-- `n_errors`: accumulated over `zip(Y_predicted_binary, Y_test)`,
incremented when `y_p != y`. -/
def nErrors (zp : List (ℚ × ℚ)) : ℕ :=
  (zp.filter fun p => decide (p.1 ≠ p.2)).length

/-- `P`: pairs with `y == 1.0`. -/
def countP (zp : List (ℚ × ℚ)) : ℕ :=
  (zp.filter fun p => decide (p.2 = 1)).length

/-- `TP`: pairs with `y == 1.0` and `y_p == 1.0`. -/
def countTP (zp : List (ℚ × ℚ)) : ℕ :=
  (zp.filter fun p => decide (p.2 = 1) && decide (p.1 = 1)).length

/-- `N`: pairs with `y == 0.0`. -/
def countN (zp : List (ℚ × ℚ)) : ℕ :=
  (zp.filter fun p => decide (p.2 = 0)).length

/-- `TN`: pairs with `y == 0.0` and `y_p == 0.0`. -/
def countTN (zp : List (ℚ × ℚ)) : ℕ :=
  (zp.filter fun p => decide (p.2 = 0) && decide (p.1 = 0)).length

/-- `1.0 if y > 0.5 else 0.0` — the label binarization applied before the
call to `roc_auc_score`. -/
def binLabel (y : ℚ) : ℚ := if y > 1/2 then 1 else 0

/-- The metric record built by the body of `test` from an (already
overridden) binary prediction list `Yb`, the score list, and the labels. -/
def testResultOf (Yb Yscore Ytest : List ℚ) (aucFn : List ℚ → List ℚ → ℚ) :
    TestResult :=
  let zp := Yb.zip Ytest
  let P : ℚ := countP zp
  let N : ℚ := countN zp
  let TP : ℚ := countTP zp
  let TN : ℚ := countTN zp
  { accuracy := 1 - (nErrors zp : ℚ) / (Yb.length : ℚ)
    TP_rate := if P = 0 then 1 else TP / P
    TN_rate := if N = 0 then 1 else TN / N
    prec := if TP + N - TN ≠ 0 then TP / (TP + N - TN) else 0
    -- `recall = TP_rate` in the source: the same expression, not recomputed
    «recall» := if P = 0 then 1 else TP / P
    roc_auc := aucFn (Ytest.map binLabel) Yscore }

/-- `EvaluationTools.test`, with the model's `predict` output passed in as
`Ypb` (binary decisions) and `Yscore` (scores).  Returns `none` exactly when
the final `n_errors/float(len(Y_predicted_binary))` division has a zero
denominator (Python: `ZeroDivisionError`). -/
def test (Ypb Yscore Ytest : List ℚ) (aucFn : List ℚ → List ℚ → ℚ)
    (new_threshold : ℚ) : Option TestResult :=
  let Yb := effectiveBinary Ypb Yscore new_threshold
  if Yb.length = 0 then none
  else some (testResultOf Yb Yscore Ytest aucFn)

/-- The per-iteration observable outcome inside the two repetition drivers:
the six values returned by `test` plus the two measured durations. -/
structure RunRecord where
  acc : ℚ
  TP_rate : ℚ
  TN_rate : ℚ
  prec : ℚ
  «recall» : ℚ
  roc_auc : ℚ
  training_time : ℚ
  test_time : ℚ
deriving Repr, DecidableEq

/-- `sum(l)/float(n)` — the mean as the source computes it. -/
def sampleMean (l : List ℚ) (n : ℕ) : ℚ := l.sum / (n : ℚ)

/-- `np.sum((np.array(l) - avg)**2)/float(n)` where `avg = sum(l)/float(n)`
— the population variance as the source computes it. -/
def popVar (l : List ℚ) (n : ℕ) : ℚ :=
  (l.map fun x => (x - sampleMean l n) ^ 2).sum / (n : ℚ)

/-- Everything `evaluate_multiple_times` computes after the loop: the eight
returned values plus the printed-only accuracy variance and the
precision/recall left over from the final iteration. -/
structure EvalMT where
  avg_acc : ℚ
  var_acc : ℚ
  avg_training_time : ℚ
  var_training_time : ℚ
  avg_test_time : ℚ
  var_test_time : ℚ
  avg_tp_rate : ℚ
  avg_tn_rate : ℚ
  avg_roc : ℚ
  printed_precision : ℚ
  printed_recall : ℚ
deriving Repr, DecidableEq

/-- The 8-tuple `evaluate_multiple_times` returns. -/
def EvalMT.ret (o : EvalMT) : ℚ × ℚ × ℚ × ℚ × ℚ × ℚ × ℚ × ℚ :=
  (o.avg_acc, o.avg_training_time, o.var_training_time, o.avg_test_time,
   o.var_test_time, o.avg_tp_rate, o.avg_tn_rate, o.avg_roc)

/-- The post-loop aggregation of `evaluate_multiple_times`, translated
verbatim: means as `sum/float(no_runs)`, variances as
`np.sum((np.array(l) - avg)**2)/float(no_runs)`, and the
precision/recall left over from the final loop iteration. -/
def aggregateMT (run : ℕ → RunRecord) (no_runs : ℕ) : EvalMT :=
  let runs := (List.range no_runs).map run
  { avg_acc := sampleMean (runs.map RunRecord.acc) no_runs
    var_acc := popVar (runs.map RunRecord.acc) no_runs
    avg_training_time := sampleMean (runs.map RunRecord.training_time) no_runs
    var_training_time := popVar (runs.map RunRecord.training_time) no_runs
    avg_test_time := sampleMean (runs.map RunRecord.test_time) no_runs
    var_test_time := popVar (runs.map RunRecord.test_time) no_runs
    avg_tp_rate := (runs.map RunRecord.TP_rate).sum / (no_runs : ℚ)
    avg_tn_rate := (runs.map RunRecord.TN_rate).sum / (no_runs : ℚ)
    avg_roc := (runs.map RunRecord.roc_auc).sum / (no_runs : ℚ)
    printed_precision := (run (no_runs - 1)).prec
    printed_recall := (run (no_runs - 1)).«recall» }

/-- `EvaluationTools.evaluate_multiple_times`: the loop body (reset, random
split, train, test, timing) is abstracted by `run k`, the record of
iteration `k`.  `none` models the `ZeroDivisionError` raised at
`sum_acc/float(no_runs)` when `no_runs = 0`. -/
def evaluate_multiple_times (run : ℕ → RunRecord) (no_runs : ℕ) :
    Option EvalMT :=
  if no_runs = 0 then none
  else some (aggregateMT run no_runs)

/-- Everything `evaluate_k_fold` computes after the loop; compared with
`EvalMT` it additionally has the printed-only AUC variance `var_roc`. -/
structure EvalKF where
  avg_acc : ℚ
  var_acc : ℚ
  avg_training_time : ℚ
  var_training_time : ℚ
  avg_test_time : ℚ
  var_test_time : ℚ
  avg_tp_rate : ℚ
  avg_tn_rate : ℚ
  avg_roc : ℚ
  var_roc : ℚ
  printed_precision : ℚ
  printed_recall : ℚ
deriving Repr, DecidableEq

/-- The 8-tuple `evaluate_k_fold` returns (same shape as
`EvalMT.ret`, with the fold-averaged AUC in the last slot). -/
def EvalKF.ret (o : EvalKF) : ℚ × ℚ × ℚ × ℚ × ℚ × ℚ × ℚ × ℚ :=
  (o.avg_acc, o.avg_training_time, o.var_training_time, o.avg_test_time,
   o.var_test_time, o.avg_tp_rate, o.avg_tn_rate, o.avg_roc)

/-- The post-loop aggregation of `evaluate_k_fold`: the same arithmetic as
`aggregateMT` with `n_folds` in place of `no_runs`, plus the AUC variance
(printed only). -/
def aggregateKF (fold : ℕ → RunRecord) (n_folds : ℕ) : EvalKF :=
  let runs := (List.range n_folds).map fold
  { avg_acc := sampleMean (runs.map RunRecord.acc) n_folds
    var_acc := popVar (runs.map RunRecord.acc) n_folds
    avg_training_time := sampleMean (runs.map RunRecord.training_time) n_folds
    var_training_time := popVar (runs.map RunRecord.training_time) n_folds
    avg_test_time := sampleMean (runs.map RunRecord.test_time) n_folds
    var_test_time := popVar (runs.map RunRecord.test_time) n_folds
    avg_tp_rate := (runs.map RunRecord.TP_rate).sum / (n_folds : ℚ)
    avg_tn_rate := (runs.map RunRecord.TN_rate).sum / (n_folds : ℚ)
    avg_roc := (runs.map RunRecord.roc_auc).sum / (n_folds : ℚ)
    var_roc := popVar (runs.map RunRecord.roc_auc) n_folds
    printed_precision := (fold (n_folds - 1)).prec
    printed_recall := (fold (n_folds - 1)).«recall» }

/-- `EvaluationTools.evaluate_k_fold`: the seeded `KFold` splitter yields
exactly `n_folds` (train, test) pairs, so the loop runs `n_folds` times;
`fold k` abstracts the record of fold `k`.  `none` models the
`ZeroDivisionError` at `sum_acc/float(n_folds)` when the fold count is 0. -/
def evaluate_k_fold (fold : ℕ → RunRecord) (n_folds : ℕ) : Option EvalKF :=
  if n_folds = 0 then none
  else some (aggregateKF fold n_folds)

/-- Claim-side count: index positions where the binary prediction differs
from the label (over the common prefix; all positions when the lengths
agree). -/
def mismatchCount (pred lab : List ℚ) : ℕ :=
  ((pred.zip lab).filter fun p => decide (p.1 ≠ p.2)).length

/-- Claim-side count: labels equal to `v`. -/
def labelCount (Ytest : List ℚ) (v : ℚ) : ℕ :=
  (Ytest.filter fun y => decide (y = v)).length

/-- The zip the counting loop of `test` walks. -/
def testPairs (Ypb Yscore Ytest : List ℚ) (new_threshold : ℚ) :
    List (ℚ × ℚ) :=
  (effectiveBinary Ypb Yscore new_threshold).zip Ytest

end EvaluationTools

namespace EvaluationTools

example : binarizeByThreshold (7/10) [9/10, 6/10, 3/10] = [1, 0, 0] := by
  norm_num [binarizeByThreshold]

example :
    test [1, 0, 0, 0] [1, 0, 0, 0] [1, 1, 0, 0] (fun _ _ => 0) (-1) =
      some ⟨3/4, 1/2, 1, 1, 1/2, 0⟩ := by
  norm_num [test, testResultOf, effectiveBinary, nErrors, countP, countTP,
    countN, countTN, binLabel, List.filter]

/-- When the (possibly overridden) binary prediction list is nonempty,
`test` returns the record built by `testResultOf`. -/
theorem test_eq_some (Ypb Yscore Ytest : List ℚ)
    (aucFn : List ℚ → List ℚ → ℚ) (t : ℚ)
    (h : effectiveBinary Ypb Yscore t ≠ []) :
    test Ypb Yscore Ytest aucFn t =
      some (testResultOf (effectiveBinary Ypb Yscore t) Yscore Ytest aucFn) := by
  have h0 : (effectiveBinary Ypb Yscore t).length ≠ 0 := by
    simpa [List.length_eq_zero] using h
  simp [test, h0]

theorem testResultOf_accuracy (Yb Yscore Ytest : List ℚ)
    (aucFn : List ℚ → List ℚ → ℚ) :
    (testResultOf Yb Yscore Ytest aucFn).accuracy =
      1 - (nErrors (Yb.zip Ytest) : ℚ) / (Yb.length : ℚ) := rfl

theorem testResultOf_TP_rate (Yb Yscore Ytest : List ℚ)
    (aucFn : List ℚ → List ℚ → ℚ) :
    (testResultOf Yb Yscore Ytest aucFn).TP_rate =
      if (countP (Yb.zip Ytest) : ℚ) = 0 then 1
      else (countTP (Yb.zip Ytest) : ℚ) / (countP (Yb.zip Ytest) : ℚ) := rfl

theorem testResultOf_TN_rate (Yb Yscore Ytest : List ℚ)
    (aucFn : List ℚ → List ℚ → ℚ) :
    (testResultOf Yb Yscore Ytest aucFn).TN_rate =
      if (countN (Yb.zip Ytest) : ℚ) = 0 then 1
      else (countTN (Yb.zip Ytest) : ℚ) / (countN (Yb.zip Ytest) : ℚ) := rfl

theorem testResultOf_prec (Yb Yscore Ytest : List ℚ)
    (aucFn : List ℚ → List ℚ → ℚ) :
    (testResultOf Yb Yscore Ytest aucFn).prec =
      if (countTP (Yb.zip Ytest) : ℚ) + (countN (Yb.zip Ytest) : ℚ) -
          (countTN (Yb.zip Ytest) : ℚ) ≠ 0 then
        (countTP (Yb.zip Ytest) : ℚ) /
          ((countTP (Yb.zip Ytest) : ℚ) + (countN (Yb.zip Ytest) : ℚ) -
            (countTN (Yb.zip Ytest) : ℚ))
      else 0 := rfl

theorem testResultOf_recall (Yb Yscore Ytest : List ℚ)
    (aucFn : List ℚ → List ℚ → ℚ) :
    (testResultOf Yb Yscore Ytest aucFn).«recall» =
      (testResultOf Yb Yscore Ytest aucFn).TP_rate := rfl

theorem testResultOf_roc_auc (Yb Yscore Ytest : List ℚ)
    (aucFn : List ℚ → List ℚ → ℚ) :
    (testResultOf Yb Yscore Ytest aucFn).roc_auc =
      aucFn (Ytest.map binLabel) Yscore := rfl

/-- Filtering by a stronger predicate keeps at most as many elements. -/
theorem length_filter_le_of_imp {α : Type} (p q : α → Bool) (l : List α)
    (h : ∀ a, q a = true → p a = true) :
    (l.filter q).length ≤ (l.filter p).length :=
  (List.monotone_filter_right l h).length_le

theorem countTP_le_countP (zp : List (ℚ × ℚ)) : countTP zp ≤ countP zp := by
  apply length_filter_le_of_imp
  intro a ha
  rw [Bool.and_eq_true] at ha
  exact ha.1

theorem countTN_le_countN (zp : List (ℚ × ℚ)) : countTN zp ≤ countN zp := by
  apply length_filter_le_of_imp
  intro a ha
  rw [Bool.and_eq_true] at ha
  exact ha.1

theorem nErrors_le_length (zp : List (ℚ × ℚ)) : nErrors zp ≤ zp.length :=
  List.length_filter_le _ _

/-- Filtering a zip on the second component counts the same elements as
filtering the second list, when the lengths agree. -/
theorem filter_snd_zip_length (q : ℚ → Bool) :
    ∀ (a b : List ℚ), a.length = b.length →
      ((a.zip b).filter fun p => q p.2).length = (b.filter q).length := by
  intro a
  induction a with
  | nil =>
    intro b hb
    cases b with
    | nil => rfl
    | cons y ys => simp at hb
  | cons x xs ih =>
    intro b hb
    cases b with
    | nil => simp at hb
    | cons y ys =>
      have h' : xs.length = ys.length := by simpa using hb
      by_cases hq : q y = true <;>
        simp [List.zip_cons_cons, List.filter_cons, hq, ih ys h']

theorem countP_eq_labelCount (Yb Ytest : List ℚ)
    (h : Yb.length = Ytest.length) :
    countP (Yb.zip Ytest) = labelCount Ytest 1 :=
  filter_snd_zip_length (fun y => decide (y = 1)) Yb Ytest h

theorem countN_eq_labelCount (Yb Ytest : List ℚ)
    (h : Yb.length = Ytest.length) :
    countN (Yb.zip Ytest) = labelCount Ytest 0 :=
  filter_snd_zip_length (fun y => decide (y = 0)) Yb Ytest h

/-- C1: for equal-length, nonempty prediction/label vectors, the first
component returned by `test` is `1 − mismatches/length` and lies in
`[0, 1]`. -/
theorem C1_accuracy (Ypb Yscore Ytest : List ℚ)
    (aucFn : List ℚ → List ℚ → ℚ) (t : ℚ)
    (heq : (effectiveBinary Ypb Yscore t).length = Ytest.length)
    (hne : Ytest ≠ []) :
    ∃ r, test Ypb Yscore Ytest aucFn t = some r ∧
      r.accuracy =
        1 - (mismatchCount (effectiveBinary Ypb Yscore t) Ytest : ℚ) /
          (Ytest.length : ℚ) ∧
      0 ≤ r.accuracy ∧ r.accuracy ≤ 1 := by
  have hlen0 : Ytest.length ≠ 0 := by simpa [List.length_eq_zero] using hne
  have hYbne : effectiveBinary Ypb Yscore t ≠ [] := by
    intro h
    rw [h] at heq
    simp at heq
    exact hlen0 heq.symm
  refine ⟨_, test_eq_some Ypb Yscore Ytest aucFn t hYbne, ?_, ?_, ?_⟩
  · rw [testResultOf_accuracy, heq]
    rfl
  all_goals
    rw [testResultOf_accuracy, heq]
  · have hzlen : ((effectiveBinary Ypb Yscore t).zip Ytest).length =
        Ytest.length := by
      simp [List.length_zip, heq]
    have he : (nErrors ((effectiveBinary Ypb Yscore t).zip Ytest) : ℚ) ≤
        (Ytest.length : ℚ) := by
      exact_mod_cast hzlen ▸ nErrors_le_length _
    have hn : (0 : ℚ) < (Ytest.length : ℚ) := by
      exact_mod_cast Nat.pos_of_ne_zero hlen0
    exact sub_nonneg.mpr ((div_le_one hn).mpr he)
  · have hn : (0 : ℚ) ≤ (Ytest.length : ℚ) := Nat.cast_nonneg _
    exact sub_le_self _ (div_nonneg (Nat.cast_nonneg _) hn)

theorem C1_accuracy_witness :
    ∃ r, test [1, 0] [1, 0] [1, 1] (fun _ _ => (0 : ℚ)) (-1) = some r ∧
      r.accuracy =
        1 - (mismatchCount (effectiveBinary [1, 0] [1, 0] (-1)) [1, 1] : ℚ) /
          (([1, 1] : List ℚ).length : ℚ) ∧
      0 ≤ r.accuracy ∧ r.accuracy ≤ 1 :=
  C1_accuracy [1, 0] [1, 0] [1, 1] (fun _ _ => 0) (-1) (by decide) (by decide)

/-- A fallback-guarded count ratio is nonnegative. -/
theorem rate_nonneg (a c : ℕ) :
    0 ≤ (if (c : ℚ) = 0 then 1 else (a : ℚ) / (c : ℚ)) := by
  by_cases hc : (c : ℚ) = 0
  · rw [if_pos hc]
    norm_num
  · rw [if_neg hc]
    exact div_nonneg (Nat.cast_nonneg _) (Nat.cast_nonneg _)

/-- A fallback-guarded count ratio is at most 1 when the numerator count is
bounded by the denominator count. -/
theorem rate_le_one (a c : ℕ) (h : a ≤ c) :
    (if (c : ℚ) = 0 then 1 else (a : ℚ) / (c : ℚ)) ≤ 1 := by
  by_cases hc : (c : ℚ) = 0
  · rw [if_pos hc]
  · rw [if_neg hc]
    have hcpos : (0 : ℚ) < (c : ℚ) :=
      lt_of_le_of_ne (Nat.cast_nonneg _) (Ne.symm hc)
    exact (div_le_one hcpos).mpr (by exact_mod_cast h)

/-- C2: the TP-rate is `TP/P` with fallback `1.0` when `P = 0` (with `P`
the number of labels equal to 1), symmetrically the TN-rate, and both
returned rates lie in `[0, 1]`. -/
theorem C2_rates (Ypb Yscore Ytest : List ℚ)
    (aucFn : List ℚ → List ℚ → ℚ) (t : ℚ)
    (heq : (effectiveBinary Ypb Yscore t).length = Ytest.length)
    (hne : Ytest ≠ []) :
    ∃ r, test Ypb Yscore Ytest aucFn t = some r ∧
      r.TP_rate = (if labelCount Ytest 1 = 0 then 1
        else (countTP (testPairs Ypb Yscore Ytest t) : ℚ) /
          (labelCount Ytest 1 : ℚ)) ∧
      r.TN_rate = (if labelCount Ytest 0 = 0 then 1
        else (countTN (testPairs Ypb Yscore Ytest t) : ℚ) /
          (labelCount Ytest 0 : ℚ)) ∧
      0 ≤ r.TP_rate ∧ r.TP_rate ≤ 1 ∧ 0 ≤ r.TN_rate ∧ r.TN_rate ≤ 1 := by
  have hlen0 : Ytest.length ≠ 0 := by simpa [List.length_eq_zero] using hne
  have hYbne : effectiveBinary Ypb Yscore t ≠ [] := by
    intro h
    rw [h] at heq
    simp at heq
    exact hlen0 heq.symm
  refine ⟨_, test_eq_some Ypb Yscore Ytest aucFn t hYbne,
    ?_, ?_, ?_, ?_, ?_, ?_⟩
  · rw [testResultOf_TP_rate, countP_eq_labelCount _ _ heq]
    by_cases h1 : labelCount Ytest 1 = 0
    · rw [if_pos (by exact_mod_cast h1), if_pos h1]
    · rw [if_neg (by exact_mod_cast h1), if_neg h1]
      rfl
  · rw [testResultOf_TN_rate, countN_eq_labelCount _ _ heq]
    by_cases h0 : labelCount Ytest 0 = 0
    · rw [if_pos (by exact_mod_cast h0), if_pos h0]
    · rw [if_neg (by exact_mod_cast h0), if_neg h0]
      rfl
  · rw [testResultOf_TP_rate]
    exact rate_nonneg _ _
  · rw [testResultOf_TP_rate]
    exact rate_le_one _ _ (countTP_le_countP _)
  · rw [testResultOf_TN_rate]
    exact rate_nonneg _ _
  · rw [testResultOf_TN_rate]
    exact rate_le_one _ _ (countTN_le_countN _)

theorem C2_rates_witness :
    ∃ r, test [1, 0] [1, 0] [1, 1] (fun _ _ => (0 : ℚ)) (-1) = some r ∧
      r.TP_rate = (if labelCount [1, 1] 1 = 0 then 1
        else (countTP (testPairs [1, 0] [1, 0] [1, 1] (-1)) : ℚ) /
          (labelCount [1, 1] 1 : ℚ)) ∧
      r.TN_rate = (if labelCount [1, 1] 0 = 0 then 1
        else (countTN (testPairs [1, 0] [1, 0] [1, 1] (-1)) : ℚ) /
          (labelCount [1, 1] 0 : ℚ)) ∧
      0 ≤ r.TP_rate ∧ r.TP_rate ≤ 1 ∧ 0 ≤ r.TN_rate ∧ r.TN_rate ≤ 1 :=
  C2_rates [1, 0] [1, 0] [1, 1] (fun _ _ => 0) (-1) (by decide) (by decide)

/-- C3: the precision is `TP/(TP + (N − TN))` when that denominator is
nonzero and `0.0` otherwise, and the zero-denominator branch forces
`TP = 0`. -/
theorem C3_precision (Ypb Yscore Ytest : List ℚ)
    (aucFn : List ℚ → List ℚ → ℚ) (t : ℚ)
    (heq : (effectiveBinary Ypb Yscore t).length = Ytest.length)
    (hne : Ytest ≠ []) :
    ∃ r, test Ypb Yscore Ytest aucFn t = some r ∧
      ((countTP (testPairs Ypb Yscore Ytest t) : ℚ) +
          ((countN (testPairs Ypb Yscore Ytest t) : ℚ) -
            (countTN (testPairs Ypb Yscore Ytest t) : ℚ)) ≠ 0 →
        r.prec = (countTP (testPairs Ypb Yscore Ytest t) : ℚ) /
          ((countTP (testPairs Ypb Yscore Ytest t) : ℚ) +
            ((countN (testPairs Ypb Yscore Ytest t) : ℚ) -
              (countTN (testPairs Ypb Yscore Ytest t) : ℚ)))) ∧
      ((countTP (testPairs Ypb Yscore Ytest t) : ℚ) +
          ((countN (testPairs Ypb Yscore Ytest t) : ℚ) -
            (countTN (testPairs Ypb Yscore Ytest t) : ℚ)) = 0 →
        r.prec = 0 ∧ countTP (testPairs Ypb Yscore Ytest t) = 0) := by
  have hlen0 : Ytest.length ≠ 0 := by simpa [List.length_eq_zero] using hne
  have hYbne : effectiveBinary Ypb Yscore t ≠ [] := by
    intro h
    rw [h] at heq
    simp at heq
    exact hlen0 heq.symm
  have hassoc : (countTP (testPairs Ypb Yscore Ytest t) : ℚ) +
      (countN (testPairs Ypb Yscore Ytest t) : ℚ) -
      (countTN (testPairs Ypb Yscore Ytest t) : ℚ) =
      (countTP (testPairs Ypb Yscore Ytest t) : ℚ) +
      ((countN (testPairs Ypb Yscore Ytest t) : ℚ) -
        (countTN (testPairs Ypb Yscore Ytest t) : ℚ)) :=
    add_sub_assoc _ _ _
  have hzp : (effectiveBinary Ypb Yscore t).zip Ytest =
      testPairs Ypb Yscore Ytest t := rfl
  refine ⟨_, test_eq_some Ypb Yscore Ytest aucFn t hYbne, ?_, ?_⟩
  · intro hden
    rw [testResultOf_prec, hzp, hassoc, if_pos hden]
  · intro hden0
    constructor
    · rw [testResultOf_prec, hzp, hassoc, if_neg (not_not_intro hden0)]
    · have h1 : (0 : ℚ) ≤ (countTP (testPairs Ypb Yscore Ytest t) : ℚ) :=
        Nat.cast_nonneg _
      have h2 : (0 : ℚ) ≤ (countN (testPairs Ypb Yscore Ytest t) : ℚ) -
          (countTN (testPairs Ypb Yscore Ytest t) : ℚ) :=
        sub_nonneg.mpr (by exact_mod_cast countTN_le_countN _)
      have h3 : (countTP (testPairs Ypb Yscore Ytest t) : ℚ) = 0 := by
        linarith
      exact_mod_cast h3

theorem C3_precision_witness :
    ∃ r, test [0, 0] [0, 0] [1, 1] (fun _ _ => (0 : ℚ)) (-1) = some r ∧
      ((countTP (testPairs [0, 0] [0, 0] [1, 1] (-1)) : ℚ) +
          ((countN (testPairs [0, 0] [0, 0] [1, 1] (-1)) : ℚ) -
            (countTN (testPairs [0, 0] [0, 0] [1, 1] (-1)) : ℚ)) ≠ 0 →
        r.prec = (countTP (testPairs [0, 0] [0, 0] [1, 1] (-1)) : ℚ) /
          ((countTP (testPairs [0, 0] [0, 0] [1, 1] (-1)) : ℚ) +
            ((countN (testPairs [0, 0] [0, 0] [1, 1] (-1)) : ℚ) -
              (countTN (testPairs [0, 0] [0, 0] [1, 1] (-1)) : ℚ)))) ∧
      ((countTP (testPairs [0, 0] [0, 0] [1, 1] (-1)) : ℚ) +
          ((countN (testPairs [0, 0] [0, 0] [1, 1] (-1)) : ℚ) -
            (countTN (testPairs [0, 0] [0, 0] [1, 1] (-1)) : ℚ)) = 0 →
        r.prec = 0 ∧ countTP (testPairs [0, 0] [0, 0] [1, 1] (-1)) = 0) :=
  C3_precision [0, 0] [0, 0] [1, 1] (fun _ _ => 0) (-1) (by decide) (by decide)

/-- C4: with `new_threshold >= 0` the binary predictions are recomputed
from the scores (making `test` independent of the model's own binary
output), `[0.9, 0.6, 0.3]` at threshold `0.7` gives `[1, 0, 0]`, and with
`new_threshold < 0` the model's own binary predictions are used. -/
theorem C4_threshold_override (Ypb Ypb2 Yscore Ytest : List ℚ)
    (aucFn : List ℚ → List ℚ → ℚ) (t : ℚ) :
    (t ≥ 0 → effectiveBinary Ypb Yscore t = binarizeByThreshold t Yscore ∧
      test Ypb Yscore Ytest aucFn t = test Ypb2 Yscore Ytest aucFn t) ∧
    (t < 0 → effectiveBinary Ypb Yscore t = Ypb) ∧
    binarizeByThreshold (7/10) [9/10, 6/10, 3/10] = [1, 0, 0] := by
  refine ⟨?_, ?_, ?_⟩
  · intro ht
    have h1 : effectiveBinary Ypb Yscore t = binarizeByThreshold t Yscore := by
      simp [effectiveBinary, ht]
    have h2 : effectiveBinary Ypb2 Yscore t = binarizeByThreshold t Yscore := by
      simp [effectiveBinary, ht]
    refine ⟨h1, ?_⟩
    unfold test
    rw [h1, h2]
  · intro ht
    simp [effectiveBinary, not_le.mpr ht]
  · norm_num [binarizeByThreshold]

theorem C4_threshold_override_witness :
    (effectiveBinary [0, 1] [1, 0] 1 = binarizeByThreshold 1 [1, 0] ∧
      test [0, 1] [1, 0] [1, 1] (fun _ _ => (0 : ℚ)) 1 =
        test [1, 0] [1, 0] [1, 1] (fun _ _ => (0 : ℚ)) 1) ∧
    effectiveBinary [0, 1] [1, 0] (-1) = [0, 1] :=
  ⟨(C4_threshold_override [0, 1] [1, 0] [1, 0] [1, 1]
      (fun _ _ => 0) 1).1 (by decide),
   (C4_threshold_override [0, 1] [1, 0] [1, 0] [1, 1]
      (fun _ _ => 0) (-1)).2.1 (by decide)⟩

/-- Any record returned by `test` is the one built by `testResultOf` over
the effective binary predictions. -/
theorem eq_testResultOf_of_test_eq_some (Ypb Yscore Ytest : List ℚ)
    (aucFn : List ℚ → List ℚ → ℚ) (t : ℚ) (r : TestResult)
    (h : test Ypb Yscore Ytest aucFn t = some r) :
    r = testResultOf (effectiveBinary Ypb Yscore t) Yscore Ytest aucFn := by
  by_cases h0 : (effectiveBinary Ypb Yscore t).length = 0
  · simp [test, h0] at h
  · rw [test_eq_some Ypb Yscore Ytest aucFn t
      (by simpa [List.length_eq_zero] using h0)] at h
    exact (Option.some.inj h).symm

/-- C5: the recall component returned by `test` is always the same value
as the TP-rate component. -/
theorem C5_recall_eq_TP_rate (Ypb Yscore Ytest : List ℚ)
    (aucFn : List ℚ → List ℚ → ℚ) (t : ℚ) (r : TestResult)
    (h : test Ypb Yscore Ytest aucFn t = some r) :
    r.«recall» = r.TP_rate := by
  rw [eq_testResultOf_of_test_eq_some Ypb Yscore Ytest aucFn t r h]
  exact testResultOf_recall _ _ _ _

theorem C5_recall_eq_TP_rate_witness :
    (testResultOf (effectiveBinary [1, 0] [1, 0] (-1)) [1, 0] [1, 1]
        (fun _ _ => (0 : ℚ))).«recall» =
      (testResultOf (effectiveBinary [1, 0] [1, 0] (-1)) [1, 0] [1, 1]
        (fun _ _ => (0 : ℚ))).TP_rate :=
  C5_recall_eq_TP_rate [1, 0] [1, 0] [1, 1] (fun _ _ => 0) (-1) _
    (test_eq_some [1, 0] [1, 0] [1, 1] (fun _ _ => 0) (-1) (by decide))

/-- C8: the label list handed to the AUC routine is the entrywise
`1.0 if y > 0.5 else 0.0` binarization, which is the identity on label
lists with entries in {0, 1}, so on such labels the AUC is computed over
the unchanged labels and the raw scores. -/
theorem C8_auc_binarization (Ypb Yscore Ytest : List ℚ)
    (aucFn : List ℚ → List ℚ → ℚ) (t : ℚ) :
    (∀ r, test Ypb Yscore Ytest aucFn t = some r →
      r.roc_auc = aucFn (Ytest.map binLabel) Yscore) ∧
    ((∀ y ∈ Ytest, y = 0 ∨ y = 1) → Ytest.map binLabel = Ytest ∧
      ∀ r, test Ypb Yscore Ytest aucFn t = some r →
        r.roc_auc = aucFn Ytest Yscore) := by
  have hfst : ∀ r, test Ypb Yscore Ytest aucFn t = some r →
      r.roc_auc = aucFn (Ytest.map binLabel) Yscore := by
    intro r h
    rw [eq_testResultOf_of_test_eq_some Ypb Yscore Ytest aucFn t r h]
    exact testResultOf_roc_auc _ _ _ _
  have hb0 : binLabel 0 = 0 := by norm_num [binLabel]
  have hb1 : binLabel 1 = 1 := by norm_num [binLabel]
  have hmap : ∀ (l : List ℚ), (∀ y ∈ l, y = 0 ∨ y = 1) →
      l.map binLabel = l := by
    intro l
    induction l with
    | nil => intro _; rfl
    | cons y ys ih =>
      intro hl
      have hy := hl y (List.mem_cons_self y ys)
      have hys := ih fun z hz => hl z (List.mem_cons_of_mem y hz)
      rcases hy with hy | hy <;> subst hy <;> simp [hb0, hb1, hys]
  refine ⟨hfst, fun hbin => ⟨hmap Ytest hbin, ?_⟩⟩
  intro r h
  rw [hfst r h, hmap Ytest hbin]

theorem C8_auc_binarization_witness :
    ([0, 1] : List ℚ).map binLabel = [0, 1] ∧
    ∀ r, test [1, 0] [1, 0] [0, 1] (fun _ _ => (0 : ℚ)) (-1) = some r →
      r.roc_auc = 0 :=
  (C8_auc_binarization [1, 0] [1, 0] [0, 1] (fun _ _ => 0) (-1)).2 (by decide)

/-- C9: on an empty prediction output `test` yields no result (the
accuracy division has denominator zero), and a nonempty effective binary
prediction list suffices for `test` to return a record. -/
theorem C9_empty_predictions (Ypb Yscore Ytest : List ℚ)
    (aucFn : List ℚ → List ℚ → ℚ) (t : ℚ) :
    test [] [] Ytest aucFn t = none ∧
    (effectiveBinary Ypb Yscore t ≠ [] →
      ∃ r, test Ypb Yscore Ytest aucFn t = some r) := by
  constructor
  · have h : effectiveBinary [] [] t = [] := by
      by_cases ht : t ≥ 0 <;> simp [effectiveBinary, binarizeByThreshold, ht]
    simp [test, h]
  · intro h
    exact ⟨_, test_eq_some Ypb Yscore Ytest aucFn t h⟩

theorem C9_empty_predictions_witness :
    test [] [] [1] (fun _ _ => (0 : ℚ)) (-1) = none ∧
    ∃ r, test [1] [1] [1] (fun _ _ => (0 : ℚ)) (-1) = some r :=
  ⟨(C9_empty_predictions [1] [1] [1] (fun _ _ => (0 : ℚ)) (-1)).1,
   (C9_empty_predictions [1] [1] [1] (fun _ _ => (0 : ℚ)) (-1)).2 (by decide)⟩

/-- C10: `evaluate_multiple_times` yields no result for `no_runs = 0`
(every aggregate divides by the run count) and yields a result for every
`no_runs ≥ 1`. -/
theorem C10_no_runs_zero (run : ℕ → RunRecord) (n : ℕ) :
    evaluate_multiple_times run 0 = none ∧
    (n ≠ 0 → ∃ o, evaluate_multiple_times run n = some o) := by
  constructor
  · simp [evaluate_multiple_times]
  · intro h
    exact ⟨aggregateMT run n, by simp [evaluate_multiple_times, h]⟩

theorem C10_no_runs_zero_witness :
    evaluate_multiple_times (fun _ => ⟨1, 1, 1, 1, 1, 1, 1, 1⟩) 0 = none ∧
    ∃ o, evaluate_multiple_times (fun _ => ⟨1, 1, 1, 1, 1, 1, 1, 1⟩) 3 =
      some o :=
  ⟨(C10_no_runs_zero (fun _ => ⟨1, 1, 1, 1, 1, 1, 1, 1⟩) 3).1,
   (C10_no_runs_zero (fun _ => ⟨1, 1, 1, 1, 1, 1, 1, 1⟩) 3).2 (by decide)⟩

theorem evaluate_multiple_times_eq_some (run : ℕ → RunRecord) (n : ℕ)
    (hn : n ≠ 0) :
    evaluate_multiple_times run n = some (aggregateMT run n) := by
  simp [evaluate_multiple_times, hn]

theorem evaluate_k_fold_eq_some (fold : ℕ → RunRecord) (m : ℕ)
    (hm : m ≠ 0) :
    evaluate_k_fold fold m = some (aggregateKF fold m) := by
  simp [evaluate_k_fold, hm]

/-- The population variance of a constant list over its length is zero. -/
theorem popVar_replicate (n : ℕ) (hn : n ≠ 0) (x : ℚ) :
    popVar (List.replicate n x) n = 0 := by
  have hQ : (n : ℚ) ≠ 0 := Nat.cast_ne_zero.mpr hn
  simp [popVar, sampleMean, List.sum_replicate, List.map_replicate,
    nsmul_eq_mul, mul_div_cancel_left₀ _ hQ, sub_self]

/-- C6: every variance the two drivers compute is the population variance
— the sum of squared deviations from the mean divided by the run count
(`no_runs`, resp. `n_folds`) — so it vanishes on identical per-run values,
and for accuracies `[0.8, 0.9, 0.7]` over 3 runs the mean is `0.8` and the
variance is `((0.0)² + (0.1)² + (0.1)²)/3`. -/
theorem C6_population_variance (run fold : ℕ → RunRecord) (n m : ℕ)
    (hn : n ≠ 0) (hm : m ≠ 0) :
    (∃ o, evaluate_multiple_times run n = some o ∧
      o.var_acc = popVar (((List.range n).map run).map RunRecord.acc) n ∧
      o.var_training_time =
        popVar (((List.range n).map run).map RunRecord.training_time) n ∧
      o.var_test_time =
        popVar (((List.range n).map run).map RunRecord.test_time) n) ∧
    (∃ o, evaluate_k_fold fold m = some o ∧
      o.var_acc = popVar (((List.range m).map fold).map RunRecord.acc) m ∧
      o.var_training_time =
        popVar (((List.range m).map fold).map RunRecord.training_time) m ∧
      o.var_test_time =
        popVar (((List.range m).map fold).map RunRecord.test_time) m ∧
      o.var_roc =
        popVar (((List.range m).map fold).map RunRecord.roc_auc) m) ∧
    (∀ x : ℚ, popVar (List.replicate n x) n = 0) ∧
    sampleMean [8/10, 9/10, 7/10] 3 = 8/10 ∧
    popVar [8/10, 9/10, 7/10] 3 = ((0 : ℚ)^2 + (1/10)^2 + (1/10)^2) / 3 := by
  refine ⟨⟨aggregateMT run n, evaluate_multiple_times_eq_some run n hn,
      rfl, rfl, rfl⟩,
    ⟨aggregateKF fold m, evaluate_k_fold_eq_some fold m hm,
      rfl, rfl, rfl, rfl⟩,
    popVar_replicate n hn, ?_, ?_⟩
  · norm_num [sampleMean, List.sum_cons, List.sum_nil]
  · norm_num [popVar, sampleMean, List.sum_cons, List.sum_nil,
      List.map_cons, List.map_nil]

theorem C6_population_variance_witness :
    (∃ o, evaluate_multiple_times
        (fun _ => (⟨1, 1, 1, 1, 1, 1, 1, 1⟩ : RunRecord)) 3 = some o ∧
      o.var_acc = popVar (((List.range 3).map
        (fun _ => (⟨1, 1, 1, 1, 1, 1, 1, 1⟩ : RunRecord))).map
          RunRecord.acc) 3 ∧
      o.var_training_time = popVar (((List.range 3).map
        (fun _ => (⟨1, 1, 1, 1, 1, 1, 1, 1⟩ : RunRecord))).map
          RunRecord.training_time) 3 ∧
      o.var_test_time = popVar (((List.range 3).map
        (fun _ => (⟨1, 1, 1, 1, 1, 1, 1, 1⟩ : RunRecord))).map
          RunRecord.test_time) 3) ∧
    popVar (List.replicate 3 (5 : ℚ)) 3 = 0 := by
  have h := C6_population_variance
    (fun _ => (⟨1, 1, 1, 1, 1, 1, 1, 1⟩ : RunRecord))
    (fun _ => (⟨1, 1, 1, 1, 1, 1, 1, 1⟩ : RunRecord)) 3 3
    (by decide) (by decide)
  exact ⟨h.1, h.2.2.1 5⟩

/-- C7: both drivers return the 8-tuple (average accuracy, average
training duration, training-duration variance, average test duration,
test-duration variance, average TP-rate, average TN-rate, average AUC);
precision and recall are not averaged, are absent from the tuple, and
the reported values are those of the final iteration. -/
theorem C7_return_tuple (run fold : ℕ → RunRecord) (n m : ℕ)
    (hn : n ≠ 0) (hm : m ≠ 0) :
    (∃ o, evaluate_multiple_times run n = some o ∧
      o.ret = (sampleMean (((List.range n).map run).map RunRecord.acc) n,
        sampleMean (((List.range n).map run).map RunRecord.training_time) n,
        popVar (((List.range n).map run).map RunRecord.training_time) n,
        sampleMean (((List.range n).map run).map RunRecord.test_time) n,
        popVar (((List.range n).map run).map RunRecord.test_time) n,
        (((List.range n).map run).map RunRecord.TP_rate).sum / (n : ℚ),
        (((List.range n).map run).map RunRecord.TN_rate).sum / (n : ℚ),
        (((List.range n).map run).map RunRecord.roc_auc).sum / (n : ℚ)) ∧
      o.printed_precision = (run (n - 1)).prec ∧
      o.printed_recall = (run (n - 1)).«recall») ∧
    (∃ o, evaluate_k_fold fold m = some o ∧
      o.ret = (sampleMean (((List.range m).map fold).map RunRecord.acc) m,
        sampleMean (((List.range m).map fold).map RunRecord.training_time) m,
        popVar (((List.range m).map fold).map RunRecord.training_time) m,
        sampleMean (((List.range m).map fold).map RunRecord.test_time) m,
        popVar (((List.range m).map fold).map RunRecord.test_time) m,
        (((List.range m).map fold).map RunRecord.TP_rate).sum / (m : ℚ),
        (((List.range m).map fold).map RunRecord.TN_rate).sum / (m : ℚ),
        (((List.range m).map fold).map RunRecord.roc_auc).sum / (m : ℚ)) ∧
      o.printed_precision = (fold (m - 1)).prec ∧
      o.printed_recall = (fold (m - 1)).«recall») :=
  ⟨⟨aggregateMT run n, evaluate_multiple_times_eq_some run n hn,
      rfl, rfl, rfl⟩,
   ⟨aggregateKF fold m, evaluate_k_fold_eq_some fold m hm,
      rfl, rfl, rfl⟩⟩

theorem C7_return_tuple_witness :
    (∃ o, evaluate_multiple_times
        (fun _ => (⟨1, 1, 1, 1, 1, 1, 1, 1⟩ : RunRecord)) 2 = some o ∧
      o.ret = (sampleMean (((List.range 2).map
          (fun _ => (⟨1, 1, 1, 1, 1, 1, 1, 1⟩ : RunRecord))).map
            RunRecord.acc) 2,
        sampleMean (((List.range 2).map
          (fun _ => (⟨1, 1, 1, 1, 1, 1, 1, 1⟩ : RunRecord))).map
            RunRecord.training_time) 2,
        popVar (((List.range 2).map
          (fun _ => (⟨1, 1, 1, 1, 1, 1, 1, 1⟩ : RunRecord))).map
            RunRecord.training_time) 2,
        sampleMean (((List.range 2).map
          (fun _ => (⟨1, 1, 1, 1, 1, 1, 1, 1⟩ : RunRecord))).map
            RunRecord.test_time) 2,
        popVar (((List.range 2).map
          (fun _ => (⟨1, 1, 1, 1, 1, 1, 1, 1⟩ : RunRecord))).map
            RunRecord.test_time) 2,
        (((List.range 2).map
          (fun _ => (⟨1, 1, 1, 1, 1, 1, 1, 1⟩ : RunRecord))).map
            RunRecord.TP_rate).sum / ((2 : ℕ) : ℚ),
        (((List.range 2).map
          (fun _ => (⟨1, 1, 1, 1, 1, 1, 1, 1⟩ : RunRecord))).map
            RunRecord.TN_rate).sum / ((2 : ℕ) : ℚ),
        (((List.range 2).map
          (fun _ => (⟨1, 1, 1, 1, 1, 1, 1, 1⟩ : RunRecord))).map
            RunRecord.roc_auc).sum / ((2 : ℕ) : ℚ)) ∧
      o.printed_precision =
        ((fun _ => (⟨1, 1, 1, 1, 1, 1, 1, 1⟩ : RunRecord)) (2 - 1)).prec ∧
      o.printed_recall =
        ((fun _ => (⟨1, 1, 1, 1, 1, 1, 1, 1⟩ : RunRecord)) (2 - 1)).«recall») ∧
    (∃ o, evaluate_k_fold
        (fun _ => (⟨1, 1, 1, 1, 1, 1, 1, 1⟩ : RunRecord)) 2 = some o ∧
      o.ret = (sampleMean (((List.range 2).map
          (fun _ => (⟨1, 1, 1, 1, 1, 1, 1, 1⟩ : RunRecord))).map
            RunRecord.acc) 2,
        sampleMean (((List.range 2).map
          (fun _ => (⟨1, 1, 1, 1, 1, 1, 1, 1⟩ : RunRecord))).map
            RunRecord.training_time) 2,
        popVar (((List.range 2).map
          (fun _ => (⟨1, 1, 1, 1, 1, 1, 1, 1⟩ : RunRecord))).map
            RunRecord.training_time) 2,
        sampleMean (((List.range 2).map
          (fun _ => (⟨1, 1, 1, 1, 1, 1, 1, 1⟩ : RunRecord))).map
            RunRecord.test_time) 2,
        popVar (((List.range 2).map
          (fun _ => (⟨1, 1, 1, 1, 1, 1, 1, 1⟩ : RunRecord))).map
            RunRecord.test_time) 2,
        (((List.range 2).map
          (fun _ => (⟨1, 1, 1, 1, 1, 1, 1, 1⟩ : RunRecord))).map
            RunRecord.TP_rate).sum / ((2 : ℕ) : ℚ),
        (((List.range 2).map
          (fun _ => (⟨1, 1, 1, 1, 1, 1, 1, 1⟩ : RunRecord))).map
            RunRecord.TN_rate).sum / ((2 : ℕ) : ℚ),
        (((List.range 2).map
          (fun _ => (⟨1, 1, 1, 1, 1, 1, 1, 1⟩ : RunRecord))).map
            RunRecord.roc_auc).sum / ((2 : ℕ) : ℚ)) ∧
      o.printed_precision =
        ((fun _ => (⟨1, 1, 1, 1, 1, 1, 1, 1⟩ : RunRecord)) (2 - 1)).prec ∧
      o.printed_recall =
        ((fun _ => (⟨1, 1, 1, 1, 1, 1, 1, 1⟩ : RunRecord)) (2 - 1)).«recall») :=
  C7_return_tuple (fun _ => (⟨1, 1, 1, 1, 1, 1, 1, 1⟩ : RunRecord))
    (fun _ => (⟨1, 1, 1, 1, 1, 1, 1, 1⟩ : RunRecord)) 2 2
    (by decide) (by decide)

end EvaluationTools
